import Mathlib

/-
Verification of the face-selection / collision-aggregation / rotation-execution /
shuffle-scheduling engine of a Rubik's-cube game (src/RubikGame/main.py).

The embedding models the engine's state and operations directly from the source:

* `cfg` embeds the `mapping_sides` registry (key, rotation vector, quorum `num`)
  declared in `MyGame.__init__` (main.py lines 100-173).
* `collide` embeds `MyGame.collide` (lines 410-422): it adds the reporting cubie to
  the single shared `collided_cubes` set and invokes `rotate_side` whenever the
  set's size is at or above the face's `num`.
* `rotate_side` embeds `MyGame.rotate_side` (lines 369-392): it copies the shared
  set, clears the pivot's transform, re-parents the copied cubies under the pivot,
  and starts a sequence ending in `reparent_cubes` and `reset`.  The started
  sequence is recorded as a pending `Job`; `completeSeq` embeds the sequence's
  completion (`hprInterval` end / `rotate_without_anim`, then `reparent_cubes`
  lines 403-408 and `reset` lines 397-401).
* `force_traverse_step` and `force_collisions` embed `force_traverse`
  (lines 296-339) and `force_collisions` (lines 341-349).  The engine's collision
  traversals are Panda3D `CollisionTraverser.traverse` calls whose "in" events are
  queued and dispatched after the keystroke handler returns; the batch of cubie
  reports a traversal delivers is therefore an explicit argument (`reports`) of
  `attempt`, and `processReports` dispatches them through `collide` in arrival
  order.  The spatial intersection test itself is external (an engine black box).
* `attempt` embeds the single-shot keystroke channel: `accept_once("keystroke",
  force_collisions)` (line 198) honours one keystroke and is re-armed only inside
  `force_traverse`'s non-face branch (line 338), `reset` (line 401) or
  `turn_of_randomize` (line 469).
* `randomize` embeds `MyGame.randomize` (lines 471-488); the outputs of the
  external random source (`randint(30, 60)` and the index stream consumed by
  `choices`) are carried in the state as `randN` and `randPicks`, and the
  generated move sequence is recorded in `shuffleMoves` (its timed playback is
  scheduling performed by the engine's interval driver).
* `look_at_cube_side` embeds the camera preset handler (lines 424-451), acting on
  the trackball's hpr triple.
-/

/-- Euler-angle / position triples (Panda3D `Vec3`), with integral components:
every vector the engine manipulates here has whole-degree / whole-unit entries. -/
abbrev Vec3 : Type := Int × Int × Int

def vadd (a b : Vec3) : Vec3 := (a.1 + b.1, a.2.1 + b.2.1, a.2.2 + b.2.2)

def vsub (a b : Vec3) : Vec3 := (a.1 - b.1, a.2.1 - b.2.1, a.2.2 - b.2.2)

def vsmul (a : Vec3) (d : Int) : Vec3 := (a.1 * d, a.2.1 * d, a.2.2 * d)

def vneg (a : Vec3) : Vec3 := (-a.1, -a.2.1, -a.2.2)

/-- One of the 26 visible cubies collected in `create_box_colliders`. -/
abbrev Cubie : Type := Fin 26

/-- The nine face identifiers, the keys of `mapping_sides` (main.py lines 100-173). -/
inductive Side
  | TOP_SIDE
  | BOTTOM_SIDE
  | LEFT_SIDE
  | RIGHT_SIDE
  | FRONT_SIDE
  | BACK_SIDE
  | CENTER_VERTICAL_SIDE
  | CENTER_DOUBLE_SIDE
  | CENTER_HORIZONTAL_SIDE
deriving DecidableEq

/-- Per-face registry entry: command key, rotation vector and quorum count,
from the `"key"`, `"rotation"` and `"num"` fields of `mapping_sides`. -/
structure SideCfg where
  key : Char
  rotation : Vec3
  num : Nat
deriving DecidableEq

/-- The `mapping_sides` registry (main.py lines 100-173). -/
def cfg : Side → SideCfg
  | .TOP_SIDE => ⟨'t', (-90, 0, 0), 9⟩
  | .BOTTOM_SIDE => ⟨'d', (-90, 0, 0), 9⟩
  | .LEFT_SIDE => ⟨'l', (0, 90, 0), 9⟩
  | .RIGHT_SIDE => ⟨'r', (0, -90, 0), 9⟩
  | .FRONT_SIDE => ⟨'f', (0, 0, 90), 9⟩
  | .BACK_SIDE => ⟨'b', (0, 0, -90), 9⟩
  | .CENTER_VERTICAL_SIDE => ⟨'v', (-90, 0, 0), 8⟩
  | .CENTER_DOUBLE_SIDE => ⟨'c', (0, 0, 90), 8⟩
  | .CENTER_HORIZONTAL_SIDE => ⟨'h', (0, 90, 0), 8⟩

/-- Insertion order of `mapping_sides` (a Python dict preserves it), used by
`randomize`'s iteration over `mapping_sides.values()`. -/
def sideList : List Side :=
  [.TOP_SIDE, .BOTTOM_SIDE, .LEFT_SIDE, .RIGHT_SIDE, .FRONT_SIDE, .BACK_SIDE,
   .CENTER_VERTICAL_SIDE, .CENTER_DOUBLE_SIDE, .CENTER_HORIZONTAL_SIDE]

/-- The key dispatch of `force_traverse` (main.py lines 305-330): each face is
selected by its lower- or upper-case command key; all other keys fall through to
the non-traversal branch. -/
def faceOfKey (k : Char) : Option Side :=
  if k = 't' ∨ k = 'T' then some .TOP_SIDE
  else if k = 'd' ∨ k = 'D' then some .BOTTOM_SIDE
  else if k = 'l' ∨ k = 'L' then some .LEFT_SIDE
  else if k = 'r' ∨ k = 'R' then some .RIGHT_SIDE
  else if k = 'f' ∨ k = 'F' then some .FRONT_SIDE
  else if k = 'b' ∨ k = 'B' then some .BACK_SIDE
  else if k = 'h' ∨ k = 'H' then some .CENTER_HORIZONTAL_SIDE
  else if k = 'v' ∨ k = 'V' then some .CENTER_VERTICAL_SIDE
  else if k = 'c' ∨ k = 'C' then some .CENTER_DOUBLE_SIDE
  else none

/-- Direction sign from letter case (`force_traverse`, main.py lines 300-303):
`-1` for an upper-case key, `+1` otherwise. -/
def dirOf (k : Char) : Int := if k.isUpper then -1 else 1

/-- The 18-entry key list built by `randomize` (main.py lines 476-478): for each
registry entry, its key followed by the key upper-cased. -/
def shuffleKeys : List Char :=
  sideList.flatMap (fun s => [(cfg s).key, (cfg s).key.toUpper])

/-- The camera preset handler `look_at_cube_side` (main.py lines 424-451), acting
on the trackball's hpr triple; keys `'1'`-`'6'` set an absolute orientation, the
remaining branch subtracts 90 from the roll component. -/
def look_at_cube_side (k : Char) (cam : Vec3) : Vec3 :=
  if k = '1' then (0, 0, 0)
  else if k = '2' then (0, 180, 180)
  else if k = '3' then (90, 0, 0)
  else if k = '4' then (-90, 0, 0)
  else if k = '5' then (0, 90, 0)
  else if k = '6' then (0, -90, 0)
  else (cam.1, cam.2.1, cam.2.2 - 90)

/-- A started rotation sequence (`rotate_side`'s `self.seq`, main.py lines
382-392): the face whose pivot rotates, the copied list of collided cubies
re-parented under the pivot, and the hpr the pivot reaches
(`mapping_sides[name]['rotation'] * self.direction`). -/
structure Job where
  side : Side
  cubes : List Cubie
  target : Vec3

/-- The engine state: the mutable fields of `MyGame` that the core logic reads
and writes, plus the scene facts the claims are about (cubie parents, pivot
transforms, the uniform cubie position offset applied by `force_collisions`),
the started-but-unfinished rotation sequences, and bookkeeping counters
(`rotLog` records every `rotate_side` invocation, `clearCount` every `reset`).
`randN`/`randPicks` carry the external random source's next outputs. -/
structure GState where
  collided : List Cubie
  direction : Int
  animate : Bool
  randomizing : Bool
  armed : Bool
  parent : Cubie → Option Side
  pivotHpr : Side → Vec3
  posOffset : Vec3
  camera : Vec3
  pending : List Job
  rotLog : List (Side × Vec3)
  clearCount : Nat
  shuffleMoves : List Char
  randN : Nat
  randPicks : Nat → Nat

/-- `set.add` on the shared `collided_cubes` set (kept as a duplicate-free list). -/
def insertCube (c : Cubie) (l : List Cubie) : List Cubie :=
  if c ∈ l then l else c :: l

/-- `MyGame.rotate_side` (main.py lines 369-392): copy the shared collision set,
clear the pivot transform, re-parent every copied cubie under the pivot, and
start the rotation sequence (recorded as a pending `Job`; the rotation target is
`mapping_sides[name]['rotation'] * self.direction`).  The shared set is not
cleared here — that happens in `reset` at the end of the sequence. -/
def rotate_side (side : Side) (st : GState) : GState :=
  let cubes := st.collided
  let target := vsmul (cfg side).rotation st.direction
  { st with
    pivotHpr := fun s => if s = side then (0, 0, 0) else st.pivotHpr s
    parent := fun c => if c ∈ cubes then some side else st.parent c
    pending := st.pending ++ [⟨side, cubes, target⟩]
    rotLog := st.rotLog ++ [(side, target)] }

/-- `MyGame.collide` (main.py lines 410-422): add the reporting cubie to the
shared `collided_cubes` set; if the set's size is at or above the face's quorum
`num`, invoke `rotate_side`. -/
def collide (side : Side) (c : Cubie) (st : GState) : GState :=
  if (cfg side).num ≤ (insertCube c st.collided).length then
    rotate_side side { st with collided := insertCube c st.collided }
  else { st with collided := insertCube c st.collided }

/-- Dispatch of a traversal's queued collision reports through `collide`, in
arrival order (the engine's event queue is drained after the keystroke handler
returns). -/
def processReports (side : Side) : GState → List Cubie → GState
  | st, [] => st
  | st, c :: cs => processReports side (collide side c st) cs

/-- `MyGame.randomize` (main.py lines 471-488): a no-op while already
randomizing; otherwise set the randomizing flag and generate
`choices(keys, k=randint(30, 60))` — `randN` is the external `randint` output
and `randPicks` the index stream consumed by `choices` over the 18-key list. -/
def randomize (st : GState) : GState :=
  if st.randomizing then st
  else
    { st with
      randomizing := true
      shuffleMoves :=
        (List.range st.randN).map
          (fun i => shuffleKeys.getD (st.randPicks i % shuffleKeys.length) 't') }

/-- One call of `MyGame.force_traverse` (main.py lines 296-339): set the
direction sign from the key's case; a face key activates that face's traverser
(its queued reports are dispatched by the caller after both calls); otherwise
space starts `randomize`, a digit key moves the camera, and in every non-face
case the single-shot keystroke channel is re-armed (line 338). -/
def force_traverse_step (st : GState) (k : Char) : GState :=
  let st1 := { st with direction := dirOf k }
  match faceOfKey k with
  | some _ => st1
  | none =>
    let st2 :=
      if k = ' ' then randomize st1
      else if k ∈ ['1', '2', '3', '4', '5', '6', '7'] then
        { st1 with camera := look_at_cube_side k st1.camera }
      else st1
    { st2 with armed := true }

/-- `MyGame.force_collisions` (main.py lines 341-349): call `force_traverse`,
translate every cubie by +15 on all three axes, call `force_traverse` again,
translate back by -15; the collision reports queued by the traversals are then
dispatched through `collide` (face keys only — no traverser is activated
otherwise). -/
def force_collisions (st : GState) (k : Char) (reports : List Cubie) : GState :=
  let s1 := force_traverse_step st k
  let s2 := { s1 with posOffset := vadd s1.posOffset (15, 15, 15) }
  let s3 := force_traverse_step s2 k
  let s4 := { s3 with posOffset := vsub s3.posOffset (15, 15, 15) }
  match faceOfKey k with
  | some side => processReports side s4 reports
  | none => s4

/-- A keystroke arriving at the single-shot channel
(`accept_once("keystroke", force_collisions)`, main.py line 198): honoured only
while armed, in which case the handler is consumed and `force_collisions` runs;
otherwise the keystroke is dropped. -/
def attempt (st : GState) (k : Char) (reports : List Cubie) : GState :=
  if st.armed then force_collisions { st with armed := false } k reports else st

/-- Completion of the oldest started rotation sequence: the pivot reaches its
target hpr (`hprInterval` end / `rotate_without_anim`), `reparent_cubes`
(main.py lines 403-408) re-parents the copied cubies back under the cube root,
and `reset` (lines 397-401) clears the shared collision set and re-arms the
keystroke channel unless a shuffle is randomizing. -/
def completeSeq (st : GState) : GState :=
  match st.pending with
  | [] => st
  | j :: rest =>
    { st with
      pivotHpr := fun s => if s = j.side then j.target else st.pivotHpr s
      parent := fun c => if c ∈ j.cubes then none else st.parent c
      collided := []
      clearCount := st.clearCount + 1
      armed := if st.randomizing then st.armed else true
      pending := rest }

/-- Run `completeSeq` a given number of times. -/
def completeN : Nat → GState → GState
  | 0, st => st
  | Nat.succ n, st => completeN n (completeSeq st)

/-- Complete every started rotation sequence. -/
def completeAll (st : GState) : GState := completeN st.pending.length st

/-- All cubies parented to the cube root (none under a face pivot). -/
def allRoot (st : GState) : Prop := ∀ c : Cubie, st.parent c = none

/-- The engine state right after `MyGame.__init__`: empty shared collision set,
direction `-1`, animation on, not randomizing, keystroke channel armed
(line 198), every cubie under the cube root, no started sequence. -/
def initState : GState where
  collided := []
  direction := -1
  animate := true
  randomizing := false
  armed := true
  parent := fun _ => none
  pivotHpr := fun _ => (0, 0, 0)
  posOffset := (0, 0, 0)
  camera := (0, 0, 0)
  pending := []
  rotLog := []
  clearCount := 0
  shuffleMoves := []
  randN := 42
  randPicks := fun _ => 0

/-- Observable actions of `force_collisions`, in execution order: a collision
traversal for the key's face, a uniform translation of every cubie, and the
final `print_key_on_screen` call. -/
inductive FAct
  | traverse (k : Char)
  | moveAll (v : Vec3)
  | printKey (k : Char)
deriving DecidableEq

/-- The actions one `force_traverse` call performs on the cubie population: a
face key runs exactly one traversal of that face's traverser; any other key
runs none (main.py lines 305-338). -/
def force_traverse_trace (k : Char) : List FAct :=
  match faceOfKey k with
  | some _ => [.traverse k]
  | none => []

/-- The action sequence of `MyGame.force_collisions` (main.py lines 341-349),
line by line: `force_traverse(key)`; translate every cubie by +15 on all three
axes; `force_traverse(key)`; translate every cubie by -15 on all three axes;
`print_key_on_screen(key)`. -/
def force_collisions_trace (k : Char) : List FAct :=
  force_traverse_trace k ++ [.moveAll (15, 15, 15)]
    ++ force_traverse_trace k ++ [.moveAll (-15, -15, -15)]
    ++ [.printKey k]

/-- Modelled from the spec's words (its move-dispatcher step 3), for comparison
with `force_collisions_trace`: first translate every cubie by the large uniform
offset, run the traversal whose results are discarded, translate back by the
exact negative offset, and only then run the traversal that feeds the
aggregator. -/
def spec_order_trace (k : Char) : List FAct :=
  [.moveAll (15, 15, 15)] ++ force_traverse_trace k
    ++ [.moveAll (-15, -15, -15)] ++ force_traverse_trace k
    ++ [.printKey k]

theorem rotate_side_collided (s : Side) (st : GState) :
    (rotate_side s st).collided = st.collided := rfl

theorem rotate_side_armed (s : Side) (st : GState) :
    (rotate_side s st).armed = st.armed := rfl

theorem rotate_side_direction (s : Side) (st : GState) :
    (rotate_side s st).direction = st.direction := rfl

theorem rotate_side_rotLog (s : Side) (st : GState) :
    (rotate_side s st).rotLog = st.rotLog ++ [(s, vsmul (cfg s).rotation st.direction)] := rfl

theorem rotate_side_pending (s : Side) (st : GState) :
    (rotate_side s st).pending =
      st.pending ++ [⟨s, st.collided, vsmul (cfg s).rotation st.direction⟩] := rfl

theorem rotate_side_clearCount (s : Side) (st : GState) :
    (rotate_side s st).clearCount = st.clearCount := rfl

theorem rotate_side_posOffset (s : Side) (st : GState) :
    (rotate_side s st).posOffset = st.posOffset := rfl

theorem rotate_side_camera (s : Side) (st : GState) :
    (rotate_side s st).camera = st.camera := rfl

theorem collide_collided (s : Side) (c : Cubie) (st : GState) :
    (collide s c st).collided = insertCube c st.collided := by
  unfold collide; split <;> rfl

theorem collide_armed (s : Side) (c : Cubie) (st : GState) :
    (collide s c st).armed = st.armed := by
  unfold collide; split <;> rfl

theorem collide_direction (s : Side) (c : Cubie) (st : GState) :
    (collide s c st).direction = st.direction := by
  unfold collide; split <;> rfl

theorem collide_clearCount (s : Side) (c : Cubie) (st : GState) :
    (collide s c st).clearCount = st.clearCount := by
  unfold collide; split <;> rfl

theorem collide_posOffset (s : Side) (c : Cubie) (st : GState) :
    (collide s c st).posOffset = st.posOffset := by
  unfold collide; split <;> rfl

theorem collide_camera (s : Side) (c : Cubie) (st : GState) :
    (collide s c st).camera = st.camera := by
  unfold collide; split <;> rfl

theorem processReports_singleton (s : Side) (c : Cubie) (st : GState) :
    processReports s st [c] = collide s c st := rfl

theorem processReports_append (s : Side) (st : GState) (xs ys : List Cubie) :
    processReports s st (xs ++ ys) = processReports s (processReports s st xs) ys := by
  induction xs generalizing st with
  | nil => rfl
  | cons x xs ih =>
    simp only [List.cons_append, processReports]
    exact ih _

theorem processReports_armed (s : Side) :
    ∀ (r : List Cubie) (st : GState), (processReports s st r).armed = st.armed
  | [], _ => rfl
  | c :: cs, st => by
    rw [processReports, processReports_armed s cs, collide_armed]

theorem processReports_direction (s : Side) :
    ∀ (r : List Cubie) (st : GState), (processReports s st r).direction = st.direction
  | [], _ => rfl
  | c :: cs, st => by
    rw [processReports, processReports_direction s cs, collide_direction]

theorem processReports_posOffset (s : Side) :
    ∀ (r : List Cubie) (st : GState), (processReports s st r).posOffset = st.posOffset
  | [], _ => rfl
  | c :: cs, st => by
    rw [processReports, processReports_posOffset s cs, collide_posOffset]

theorem processReports_camera (s : Side) :
    ∀ (r : List Cubie) (st : GState), (processReports s st r).camera = st.camera
  | [], _ => rfl
  | c :: cs, st => by
    rw [processReports, processReports_camera s cs, collide_camera]

theorem processReports_clearCount (s : Side) :
    ∀ (r : List Cubie) (st : GState), (processReports s st r).clearCount = st.clearCount
  | [], _ => rfl
  | c :: cs, st => by
    rw [processReports, processReports_clearCount s cs, collide_clearCount]

theorem insertCube_of_notMem {c : Cubie} {l : List Cubie} (h : c ∉ l) :
    insertCube c l = c :: l := if_neg h

theorem collide_of_lt {s : Side} {c : Cubie} {st : GState}
    (h : (insertCube c st.collided).length < (cfg s).num) :
    collide s c st = { st with collided := insertCube c st.collided } := by
  unfold collide
  rw [if_neg (by omega)]

theorem collide_of_ge {s : Side} {c : Cubie} {st : GState}
    (h : (cfg s).num ≤ (insertCube c st.collided).length) :
    collide s c st = rotate_side s { st with collided := insertCube c st.collided } := by
  unfold collide
  rw [if_pos h]

theorem processReports_small (s : Side) :
    ∀ (cs : List Cubie) (st : GState), cs.Nodup → (∀ c ∈ cs, c ∉ st.collided) →
      st.collided.length + cs.length < (cfg s).num →
      processReports s st cs = { st with collided := cs.reverse ++ st.collided }
  | [], st, _, _, _ => rfl
  | c :: cs, st, hnd, hmem, hlen => by
    have hc : c ∉ st.collided := hmem c (List.mem_cons_self c cs)
    have hins : insertCube c st.collided = c :: st.collided := insertCube_of_notMem hc
    have hstep : collide s c st = { st with collided := c :: st.collided } := by
      rw [collide_of_lt (by
        rw [hins]
        simp only [List.length_cons] at hlen ⊢
        omega), hins]
    rw [processReports, hstep]
    rw [processReports_small s cs { st with collided := c :: st.collided }
      (List.Nodup.of_cons hnd)
      (by
        intro x hx
        simp only [List.mem_cons]
        push_neg
        refine ⟨?_, hmem x (List.mem_cons_of_mem c hx)⟩
        rintro rfl
        exact (List.nodup_cons.mp hnd).1 hx)
      (by
        simp only [List.length_cons] at hlen ⊢
        omega)]
    simp [List.reverse_cons, List.append_assoc]

theorem num_pos (s : Side) : 1 ≤ (cfg s).num := by
  cases s <;> decide

theorem processReports_quorum (s : Side) (st : GState) (reports : List Cubie)
    (hcol : st.collided = []) (hnd : reports.Nodup)
    (hlen : reports.length = (cfg s).num) :
    processReports s st reports = rotate_side s { st with collided := reports.reverse } := by
  rcases List.eq_nil_or_concat reports with hnil | ⟨cs, c, rfl⟩
  · exfalso
    have := num_pos s
    rw [hnil] at hlen
    simp only [List.length_nil] at hlen
    omega
  · simp only [List.concat_eq_append] at hnd hlen ⊢
    have hlen' : cs.length + 1 = (cfg s).num := by
      simpa using hlen
    have hsplit := List.nodup_append.mp hnd
    have hndcs : cs.Nodup := hsplit.1
    have hcnotin : c ∉ cs := by
      intro hmemc
      exact hsplit.2.2 hmemc (List.mem_singleton.mpr rfl)
    rw [processReports_append]
    rw [processReports_small s cs st hndcs
      (by intro x _ hx; rw [hcol] at hx; simp at hx)
      (by rw [hcol]; simp only [List.length_nil, Nat.zero_add]; omega)]
    rw [processReports_singleton]
    have hmemc2 : c ∉ cs.reverse ++ st.collided := by
      rw [hcol, List.append_nil, List.mem_reverse]
      exact hcnotin
    have hins : insertCube c (cs.reverse ++ st.collided) = c :: (cs.reverse ++ st.collided) :=
      insertCube_of_notMem hmemc2
    have hge : (cfg s).num ≤
        (insertCube c ({ st with collided := cs.reverse ++ st.collided } : GState).collided).length := by
      show (cfg s).num ≤ (insertCube c (cs.reverse ++ st.collided)).length
      rw [hins, hcol]
      simp only [List.append_nil, List.length_cons, List.length_reverse]
      omega
    rw [collide_of_ge hge]
    show rotate_side s { st with collided := insertCube c (cs.reverse ++ st.collided) } = _
    rw [hins, hcol]
    simp [List.reverse_append]

theorem vsub_vadd_cancel (p v : Vec3) : vsub (vadd p v) v = p := by
  obtain ⟨a, b, c⟩ := p
  simp [vadd, vsub]

theorem randomize_parent (st : GState) : (randomize st).parent = st.parent := by
  unfold randomize; split <;> rfl

theorem randomize_pending (st : GState) : (randomize st).pending = st.pending := by
  unfold randomize; split <;> rfl

theorem fts_parent (st : GState) (k : Char) :
    (force_traverse_step st k).parent = st.parent := by
  unfold force_traverse_step
  cases h : faceOfKey k with
  | some s => rfl
  | none =>
    dsimp only
    split
    · rw [randomize_parent]
    · split <;> rfl

theorem fts_pending (st : GState) (k : Char) :
    (force_traverse_step st k).pending = st.pending := by
  unfold force_traverse_step
  cases h : faceOfKey k with
  | some s => rfl
  | none =>
    dsimp only
    split
    · rw [randomize_pending]
    · split <;> rfl

theorem attempt_face (st : GState) (k : Char) (r : List Cubie) (side : Side)
    (harm : st.armed = true) (hf : faceOfKey k = some side) :
    ∃ s4 : GState, attempt st k r = processReports side s4 r ∧
      s4.collided = st.collided ∧ s4.armed = false ∧ s4.direction = dirOf k ∧
      s4.rotLog = st.rotLog ∧ s4.pending = st.pending ∧ s4.clearCount = st.clearCount ∧
      s4.parent = st.parent ∧ s4.posOffset = st.posOffset ∧
      s4.randomizing = st.randomizing := by
  unfold attempt force_collisions force_traverse_step
  rw [harm, hf]
  simp only [if_pos]
  exact ⟨_, rfl, rfl, rfl, rfl, rfl, rfl, rfl, rfl, vsub_vadd_cancel _ _, rfl⟩

theorem attempt_face_armed {st : GState} {k : Char} {r : List Cubie} {side : Side}
    (harm : st.armed = true) (hf : faceOfKey k = some side) :
    (attempt st k r).armed = false := by
  obtain ⟨s4, heq, -, harm4, -⟩ := attempt_face st k r side harm hf
  rw [heq, processReports_armed, harm4]

theorem attempt_unarmed {st : GState} {k : Char} {r : List Cubie}
    (h : st.armed = false) : attempt st k r = st := by
  unfold attempt
  rw [h]
  simp

theorem attempt_of_armed {st : GState} {k : Char} {r : List Cubie}
    (h : st.armed = true) :
    attempt st k r = force_collisions { st with armed := false } k r := by
  unfold attempt
  rw [h]
  simp

theorem attempt_nonface_fields (st : GState) (k : Char) (r : List Cubie)
    (harm : st.armed = true) (hf : faceOfKey k = none) :
    (attempt st k r).parent = st.parent ∧ (attempt st k r).pending = st.pending := by
  rw [attempt_of_armed harm]
  simp only [force_collisions, hf]
  constructor
  · show (force_traverse_step _ k).parent = st.parent
    rw [fts_parent]
    show (force_traverse_step _ k).parent = st.parent
    rw [fts_parent]
  · show (force_traverse_step _ k).pending = st.pending
    rw [fts_pending]
    show (force_traverse_step _ k).pending = st.pending
    rw [fts_pending]

/-- Every cubie not parented to the cube root belongs to the cubie list of some
still-pending rotation sequence. -/
def coveredByPending (st : GState) : Prop :=
  ∀ c : Cubie, st.parent c ≠ none → ∃ j ∈ st.pending, c ∈ j.cubes

theorem cov_of_eq {st st' : GState} (hp : st'.parent = st.parent)
    (hq : st'.pending = st.pending) (h : coveredByPending st) :
    coveredByPending st' := by
  intro c hc
  rw [hp] at hc
  obtain ⟨j, hj, hcj⟩ := h c hc
  refine ⟨j, ?_, hcj⟩
  rw [hq]
  exact hj

theorem cov_rotate_side {st : GState} (s : Side) (h : coveredByPending st) :
    coveredByPending (rotate_side s st) := by
  intro c hc
  unfold rotate_side at hc ⊢
  dsimp only at hc ⊢
  by_cases hmem : c ∈ st.collided
  · exact ⟨⟨s, st.collided, vsmul (cfg s).rotation st.direction⟩, by simp, hmem⟩
  · rw [if_neg hmem] at hc
    obtain ⟨j, hj, hcj⟩ := h c hc
    exact ⟨j, by simp [hj], hcj⟩

theorem cov_collide {st : GState} (s : Side) (c : Cubie) (h : coveredByPending st) :
    coveredByPending (collide s c st) := by
  unfold collide
  split
  · exact cov_rotate_side s (cov_of_eq rfl rfl h)
  · exact cov_of_eq rfl rfl h

theorem cov_processReports (s : Side) :
    ∀ (r : List Cubie) {st : GState}, coveredByPending st →
      coveredByPending (processReports s st r)
  | [], _, h => h
  | c :: cs, _, h => cov_processReports s cs (cov_collide s c h)

theorem cov_attempt (k : Char) (r : List Cubie) {st : GState}
    (h : coveredByPending st) : coveredByPending (attempt st k r) := by
  cases harm : st.armed with
  | false => rw [attempt_unarmed harm]; exact h
  | true =>
    cases hf : faceOfKey k with
    | some side =>
      obtain ⟨s4, heq, -, -, -, -, hpend4, -, hpar4, -, -⟩ :=
        attempt_face st k r side harm hf
      rw [heq]
      exact cov_processReports _ _ (cov_of_eq hpar4 hpend4 h)
    | none =>
      obtain ⟨hpar, hpend⟩ := attempt_nonface_fields st k r harm hf
      exact cov_of_eq hpar hpend h

theorem cov_completeSeq {st : GState} (h : coveredByPending st) :
    coveredByPending (completeSeq st) := by
  unfold completeSeq
  cases hp : st.pending with
  | nil => exact cov_of_eq rfl rfl h
  | cons j rest =>
    intro c hc
    dsimp only at hc ⊢
    by_cases hmem : c ∈ j.cubes
    · rw [if_pos hmem] at hc
      exact absurd rfl hc
    · rw [if_neg hmem] at hc
      obtain ⟨j', hj', hcj'⟩ := h c hc
      rw [hp] at hj'
      rcases List.mem_cons.mp hj' with rfl | hmem'
      · exact absurd hcj' hmem
      · exact ⟨j', hmem', hcj'⟩

theorem cov_completeN : ∀ (n : Nat) {st : GState}, coveredByPending st →
    coveredByPending (completeN n st)
  | 0, _, h => h
  | n + 1, _, h => cov_completeN n (cov_completeSeq h)

theorem completeSeq_pending_cons {st : GState} {j : Job} {rest : List Job}
    (h : st.pending = j :: rest) : (completeSeq st).pending = rest := by
  unfold completeSeq
  rw [h]

theorem completeN_pending : ∀ (n : Nat) (st : GState), st.pending.length = n →
    (completeN n st).pending = []
  | 0, _, h => List.length_eq_zero.mp h
  | n + 1, st, h => by
    cases hp : st.pending with
    | nil => rw [hp] at h; simp at h
    | cons j rest =>
      show (completeN n (completeSeq st)).pending = []
      apply completeN_pending n
      rw [completeSeq_pending_cons hp]
      rw [hp] at h
      simpa using h

theorem collide_trigger_iff (s : Side) (c : Cubie) (st : GState) :
    (collide s c st).rotLog.length = st.rotLog.length + 1 ↔
      (cfg s).num ≤ (insertCube c st.collided).length := by
  unfold collide
  split
  next h =>
    simp only [rotate_side_rotLog, List.length_append, List.length_singleton]
    exact iff_of_true (by trivial) h
  next h =>
    have hrot : ({ st with collided := insertCube c st.collided } : GState).rotLog
        = st.rotLog := rfl
    rw [hrot]
    constructor
    · intro habs
      omega
    · intro hge
      exact absurd hge h

theorem collide_no_trigger_iff (s : Side) (c : Cubie) (st : GState) :
    (collide s c st).rotLog.length = st.rotLog.length ↔
      (insertCube c st.collided).length < (cfg s).num := by
  unfold collide
  split
  next h =>
    simp only [rotate_side_rotLog, List.length_append, List.length_singleton]
    constructor
    · intro habs
      omega
    · intro hlt
      omega
  next h =>
    have hrot : ({ st with collided := insertCube c st.collided } : GState).rotLog
        = st.rotLog := rfl
    rw [hrot]
    exact iff_of_true (by trivial) (by omega)

theorem completeSeq_collided {st : GState} {j : Job} {rest : List Job}
    (h : st.pending = j :: rest) : (completeSeq st).collided = [] := by
  unfold completeSeq
  rw [h]

/-- Claim C3: a keystroke that arrives while a rotation is in flight — after a
face-key attempt consumed the single-shot handler and before the completed
sequence's `reset` re-arms it — is silently dropped and never buffered: the
second attempt leaves the state exactly as the first attempt left it, so the
state after the first rotation completes is as if the second keystroke never
occurred; in particular an attempt with key t immediately followed by an
attempt with key T applies only the first rotation. -/
theorem keystroke_during_flight_is_dropped (st : GState) (k k2 : Char)
    (r r2 : List Cubie) (side : Side)
    (harm : st.armed = true) (hf : faceOfKey k = some side) :
    attempt (attempt st k r) k2 r2 = attempt st k r :=
  attempt_unarmed (attempt_face_armed harm hf)

/-- Witness for C3: from the freshly initialised state, an attempt with key t
followed immediately by an attempt with key T leaves exactly the state of the
first attempt. -/
theorem keystroke_during_flight_is_dropped_witness :
    attempt (attempt initState 't' [0, 1, 2, 3, 4, 5, 6, 7, 8]) 'T'
        [0, 1, 2, 3, 4, 5, 6, 7, 8] =
      attempt initState 't' [0, 1, 2, 3, 4, 5, 6, 7, 8] :=
  keystroke_during_flight_is_dropped initState 't' 'T'
    [0, 1, 2, 3, 4, 5, 6, 7, 8] [0, 1, 2, 3, 4, 5, 6, 7, 8]
    Side.TOP_SIDE rfl rfl

/-- Claim C6: the registry's required member count is 9 for each of the six
outer faces and 8 for each of the three centre slices, and `collide` invokes a
rotation exactly when the shared collision set's size after adding the
reporting cubie is at or above that count — never below it. -/
theorem face_quorum_thresholds :
    (cfg Side.TOP_SIDE).num = 9 ∧ (cfg Side.BOTTOM_SIDE).num = 9 ∧
    (cfg Side.LEFT_SIDE).num = 9 ∧ (cfg Side.RIGHT_SIDE).num = 9 ∧
    (cfg Side.FRONT_SIDE).num = 9 ∧ (cfg Side.BACK_SIDE).num = 9 ∧
    (cfg Side.CENTER_VERTICAL_SIDE).num = 8 ∧
    (cfg Side.CENTER_HORIZONTAL_SIDE).num = 8 ∧
    (cfg Side.CENTER_DOUBLE_SIDE).num = 8 ∧
    ∀ (s : Side) (c : Cubie) (st : GState),
      ((collide s c st).rotLog.length = st.rotLog.length + 1 ↔
        (cfg s).num ≤ (insertCube c st.collided).length) ∧
      ((collide s c st).rotLog.length = st.rotLog.length ↔
        (insertCube c st.collided).length < (cfg s).num) :=
  ⟨rfl, rfl, rfl, rfl, rfl, rfl, rfl, rfl, rfl,
   fun s c st => ⟨collide_trigger_iff s c st, collide_no_trigger_iff s c st⟩⟩

/-- Claim C9: there is one collision-membership set shared by all nine faces:
`collide` updates the same set no matter which face reported, every face's
quorum comparison is made against that shared set's size, and the `reset` run
after a completed rotation empties that single set — hence the accumulated
membership of every face — at once. -/
theorem single_shared_collision_set (s1 s2 s3 : Side) (c : Cubie)
    (st st3 : GState) (hpend : st3.pending ≠ []) :
    (collide s1 c st).collided = (collide s2 c st).collided ∧
    (collide s1 c st).collided = insertCube c st.collided ∧
    ((collide s3 c st).rotLog.length = st.rotLog.length + 1 ↔
      (cfg s3).num ≤ (insertCube c st.collided).length) ∧
    (completeSeq st3).collided = [] := by
  obtain ⟨j, rest, hj⟩ := List.exists_cons_of_ne_nil hpend
  exact ⟨by rw [collide_collided, collide_collided], collide_collided s1 c st,
    collide_trigger_iff s3 c st, completeSeq_collided hj⟩

/-- Witness for C9: concrete instances of the shared-set facts, including a
state with one pending rotation whose completion empties the shared set. -/
theorem single_shared_collision_set_witness :
    (collide Side.TOP_SIDE 0 initState).collided =
      (collide Side.BOTTOM_SIDE 0 initState).collided ∧
    (collide Side.TOP_SIDE 0 initState).collided = insertCube 0 initState.collided ∧
    ((collide Side.CENTER_VERTICAL_SIDE 0 initState).rotLog.length =
        initState.rotLog.length + 1 ↔
      (cfg Side.CENTER_VERTICAL_SIDE).num ≤
        (insertCube 0 initState.collided).length) ∧
    (completeSeq { initState with
      pending := [⟨Side.TOP_SIDE, [0, 1], (0, 0, 0)⟩] }).collided = [] :=
  single_shared_collision_set Side.TOP_SIDE Side.BOTTOM_SIDE
    Side.CENTER_VERTICAL_SIDE 0 initState
    { initState with pending := [⟨Side.TOP_SIDE, [0, 1], (0, 0, 0)⟩] }
    (by simp)

/-- The rotation the executor applies for a face selected by key `k`:
`rotate_side` rotates the pivot by `mapping_sides[name]['rotation'] *
self.direction` (main.py lines 384-385 and 395), and `force_traverse` sets
`self.direction` to `-1` for an upper-case key and `1` otherwise (lines
300-303). -/
def applied_rotation (s : Side) (k : Char) : Vec3 :=
  vsmul (cfg s).rotation (dirOf k)

/-- Claim C7: for every face, the rotation applied for the upper-case key
variant and the one applied for the lower-case variant have equal magnitude and
opposite sign: the executor rotates the pivot by the face's configured Euler
delta multiplied by -1 for an upper-case key and by +1 for a lower-case key;
moreover the dispatcher records exactly `dirOf` of the pressed key as the
direction, and the rotation logged by `rotate_side` is the configured delta
times the current direction. -/
theorem case_gives_opposite_rotations (s : Side) (k k2 k3 : Char)
    (st st2 : GState) (r : List Cubie) (side3 : Side)
    (hk : k.isUpper = true) (hk2 : k2.isUpper = false)
    (harm : st.armed = true) (hf3 : faceOfKey k3 = some side3) :
    applied_rotation s k = vneg (applied_rotation s k2) ∧
    applied_rotation s k = vsmul (cfg s).rotation (-1) ∧
    applied_rotation s k2 = vsmul (cfg s).rotation 1 ∧
    (attempt st k3 r).direction = dirOf k3 ∧
    (rotate_side s st2).rotLog.getLast? =
      some (s, vsmul (cfg s).rotation st2.direction) := by
  refine ⟨?_, ?_, ?_, ?_, ?_⟩
  · simp [applied_rotation, dirOf, hk, hk2, vsmul, vneg]
  · simp [applied_rotation, dirOf, hk]
  · simp [applied_rotation, dirOf, hk2]
  · obtain ⟨s4, heq, -, -, hdir, -, -, -, -, -, -⟩ :=
      attempt_face st k3 r side3 harm hf3
    rw [heq, processReports_direction, hdir]
  · rw [rotate_side_rotLog]
    exact List.getLast?_concat _

/-- Witness for C7: the top face with keys T and t, and a concrete dispatch of
key T from the initial state. -/
theorem case_gives_opposite_rotations_witness :
    applied_rotation Side.TOP_SIDE 'T' = vneg (applied_rotation Side.TOP_SIDE 't') ∧
    applied_rotation Side.TOP_SIDE 'T' = vsmul (cfg Side.TOP_SIDE).rotation (-1) ∧
    applied_rotation Side.TOP_SIDE 't' = vsmul (cfg Side.TOP_SIDE).rotation 1 ∧
    (attempt initState 'T' []).direction = dirOf 'T' ∧
    (rotate_side Side.TOP_SIDE initState).rotLog.getLast? =
      some (Side.TOP_SIDE, vsmul (cfg Side.TOP_SIDE).rotation initState.direction) :=
  case_gives_opposite_rotations Side.TOP_SIDE 'T' 't' 'T' initState initState []
    Side.TOP_SIDE (by decide) (by decide) rfl rfl

/-- Counterexample for C2 at the concrete key t: `force_collisions` does NOT
first perturb, traverse, restore and only then run the traversal that feeds the
aggregator — its very first action is already a traversal, run at the cubies'
unperturbed positions, so its action order differs from the order the claim
describes. -/
theorem perturb_before_feed_counterexample :
    force_collisions_trace 't' ≠ spec_order_trace 't' ∧
    (force_collisions_trace 't').head? = some (FAct.traverse 't') ∧
    (spec_order_trace 't').head? = some (FAct.moveAll (15, 15, 15)) := by
  refine ⟨by decide, by decide, by decide⟩

/-- Claim C2 (amended): on every move attempt with a face key, the dispatcher
first runs a traversal at the cubies' current (unperturbed) positions, then
translates every cubie by the large uniform offset (+15 on all three axes),
runs a second traversal at the perturbed positions, and then translates every
cubie back by the exact negative offset — after which the queued collision
results are dispatched; the net cubie position offset of a whole attempt is
zero. -/
theorem perturb_after_first_traversal (k : Char) (side : Side) (st : GState)
    (r : List Cubie) (hf : faceOfKey k = some side) (harm : st.armed = true) :
    force_collisions_trace k =
      [FAct.traverse k, FAct.moveAll (15, 15, 15), FAct.traverse k,
       FAct.moveAll (-15, -15, -15), FAct.printKey k] ∧
    (attempt st k r).posOffset = st.posOffset := by
  constructor
  · unfold force_collisions_trace force_traverse_trace
    rw [hf]
    rfl
  · obtain ⟨s4, heq, -, -, -, -, -, -, -, hpos, -⟩ := attempt_face st k r side harm hf
    rw [heq, processReports_posOffset, hpos]

/-- Witness for the amended C2 at key t from the initial state. -/
theorem perturb_after_first_traversal_witness :
    force_collisions_trace 't' =
      [FAct.traverse 't', FAct.moveAll (15, 15, 15), FAct.traverse 't',
       FAct.moveAll (-15, -15, -15), FAct.printKey 't'] ∧
    (attempt initState 't' []).posOffset = initState.posOffset :=
  perturb_after_first_traversal 't' Side.TOP_SIDE initState [] rfl rfl

/-- Claim C10: each digit keystroke 1-7 routes to the camera preset handler in
both `force_traverse` calls of `force_collisions`, so the handler runs twice
per keystroke; for the absolute presets 1-6 the second run is idempotent, while
for the relative opposite-side preset 7 the -90 roll offset is applied twice,
a net roll change of -180 from one keystroke. -/
theorem digit_key_runs_camera_preset_twice (st : GState) (k : Char)
    (r : List Cubie) (harm : st.armed = true)
    (hd : k ∈ ['1', '2', '3', '4', '5', '6', '7']) :
    (attempt st k r).camera =
      look_at_cube_side k (look_at_cube_side k st.camera) ∧
    (k ≠ '7' → (attempt st k r).camera = look_at_cube_side k st.camera) ∧
    (k = '7' → (attempt st k r).camera =
      (st.camera.1, st.camera.2.1, st.camera.2.2 - 180)) := by
  rw [attempt_of_armed harm]
  fin_cases hd
  · exact ⟨rfl, fun _ => rfl, fun h => absurd h (by decide)⟩
  · exact ⟨rfl, fun _ => rfl, fun h => absurd h (by decide)⟩
  · exact ⟨rfl, fun _ => rfl, fun h => absurd h (by decide)⟩
  · exact ⟨rfl, fun _ => rfl, fun h => absurd h (by decide)⟩
  · exact ⟨rfl, fun _ => rfl, fun h => absurd h (by decide)⟩
  · exact ⟨rfl, fun _ => rfl, fun h => absurd h (by decide)⟩
  · refine ⟨rfl, fun h => absurd rfl h, fun _ => ?_⟩
    show (st.camera.1, st.camera.2.1, st.camera.2.2 - 90 - 90) = _
    rw [show st.camera.2.2 - 90 - 90 = st.camera.2.2 - 180 from by omega]

/-- Witness for C10: digit 7 pressed once from the initial state runs the
preset handler twice and moves the camera roll by -180. -/
theorem digit_key_runs_camera_preset_twice_witness :
    (attempt initState '7' []).camera =
      look_at_cube_side '7' (look_at_cube_side '7' initState.camera) ∧
    (attempt initState '7' []).camera =
      (initState.camera.1, initState.camera.2.1, initState.camera.2.2 - 180) :=
  ⟨(digit_key_runs_camera_preset_twice initState '7' [] rfl (by decide)).1,
   (digit_key_runs_camera_preset_twice initState '7' [] rfl (by decide)).2.2 rfl⟩

theorem shuffleKeys_length : shuffleKeys.length = 18 := by decide

/-- Claim C8: starting the shuffle while one is already randomizing is a no-op,
so exactly one shuffle sequence is ever generated and executing; when a shuffle
does start, its move count is the external `randint(30, 60)` draw — hence in
the inclusive range [30, 60] — and every move is drawn by `choices` from the
18-entry key list holding the nine face keys in both cases. -/
theorem randomize_spec (st st2 : GState) (m : Char)
    (h1 : st.randomizing = true)
    (h2 : st2.randomizing = false) (h3 : 30 ≤ st2.randN) (h4 : st2.randN ≤ 60)
    (hm : m ∈ (randomize st2).shuffleMoves) :
    randomize st = st ∧
    (randomize st2).randomizing = true ∧
    (randomize st2).shuffleMoves.length = st2.randN ∧
    30 ≤ (randomize st2).shuffleMoves.length ∧
    (randomize st2).shuffleMoves.length ≤ 60 ∧
    m ∈ shuffleKeys ∧
    shuffleKeys =
      ['t', 'T', 'd', 'D', 'l', 'L', 'r', 'R', 'f', 'F',
       'b', 'B', 'v', 'V', 'c', 'C', 'h', 'H'] ∧
    shuffleKeys.length = 18 := by
  have hnoop : randomize st = st := by
    unfold randomize
    rw [h1]
    simp
  have hopen : randomize st2 = { st2 with
      randomizing := true
      shuffleMoves :=
        (List.range st2.randN).map
          (fun i => shuffleKeys.getD (st2.randPicks i % shuffleKeys.length) 't') } := by
    unfold randomize
    rw [h2]
    simp
  have hlen : (randomize st2).shuffleMoves.length = st2.randN := by
    rw [hopen]
    simp
  refine ⟨hnoop, by rw [hopen], hlen, by omega, by omega, ?_, by decide,
    shuffleKeys_length⟩
  rw [hopen] at hm
  simp only [List.mem_map, List.mem_range] at hm
  obtain ⟨i, -, rfl⟩ := hm
  have hlt : st2.randPicks i % shuffleKeys.length < shuffleKeys.length := by
    apply Nat.mod_lt
    rw [shuffleKeys_length]
    omega
  rw [List.getD_eq_getElem shuffleKeys 't' hlt]
  exact List.getElem_mem hlt

/-- Witness for C8: from the initial state (not randomizing, pending draw 42),
`randomize` generates 42 all-t moves; with the randomizing flag forced on it is
a no-op. -/
theorem randomize_spec_witness :
    randomize { initState with randomizing := true } =
      { initState with randomizing := true } ∧
    (randomize initState).randomizing = true ∧
    (randomize initState).shuffleMoves.length = initState.randN ∧
    30 ≤ (randomize initState).shuffleMoves.length ∧
    (randomize initState).shuffleMoves.length ≤ 60 ∧
    't' ∈ shuffleKeys ∧
    shuffleKeys =
      ['t', 'T', 'd', 'D', 'l', 'L', 'r', 'R', 'f', 'F',
       'b', 'B', 'v', 'V', 'c', 'C', 'h', 'H'] ∧
    shuffleKeys.length = 18 :=
  randomize_spec { initState with randomizing := true } initState 't'
    rfl rfl (by decide) (by decide) (by decide)

theorem completeSeq_clearCount {st : GState} {j : Job} {rest : List Job}
    (h : st.pending = j :: rest) :
    (completeSeq st).clearCount = st.clearCount + 1 := by
  unfold completeSeq
  rw [h]

/-- Counterexample for C1: from the freshly initialised state, an attempt with
key t whose traversal delivers the nine distinct top-face reports followed by
one more report (a duplicate) arriving after the quorum event invokes TWO
rotation executions before any clear of the collision set has run. -/
theorem quorum_double_rotation_counterexample :
    (attempt initState 't' [0, 1, 2, 3, 4, 5, 6, 7, 8, 0]).rotLog.length = 2 ∧
    (attempt initState 't' [0, 1, 2, 3, 4, 5, 6, 7, 8, 0]).clearCount = 0 := by
  refine ⟨by decide, by decide⟩

/-- Claim C1 (amended): an attempt with a valid face key from a clean
aggregator whose traversal delivers exactly the face's quorum-many distinct
collision reports invokes exactly one rotation execution, and completing the
started sequence clears the face's collision set exactly once; however, a
collision report processed after the quorum event and before the clear (such as
a duplicate report) invokes a further rotation, because `collide` re-triggers
whenever the shared set's size is still at or above the quorum. -/
theorem quorum_rotates_exactly_once (st : GState) (k : Char) (side : Side)
    (reports : List Cubie) (c : Cubie)
    (harm : st.armed = true) (hf : faceOfKey k = some side)
    (hcol : st.collided = []) (hpend : st.pending = [])
    (hnd : reports.Nodup) (hlen : reports.length = (cfg side).num)
    (hc : c ∈ reports) :
    (attempt st k reports).rotLog.length = st.rotLog.length + 1 ∧
    (completeAll (attempt st k reports)).clearCount = st.clearCount + 1 ∧
    (completeAll (attempt st k reports)).collided = [] ∧
    (attempt st k (reports ++ [c])).rotLog.length = st.rotLog.length + 2 := by
  obtain ⟨s4, heq, h_col, h_arm, h_dir, h_rot, h_pend, h_clear, h_par, h_pos, h_rand⟩ :=
    attempt_face st k reports side harm hf
  have h4col : s4.collided = [] := by rw [h_col, hcol]
  have hattempt : attempt st k reports =
      rotate_side side { s4 with collided := reports.reverse } := by
    rw [heq, processReports_quorum side s4 reports h4col hnd hlen]
  have e0 : ({ s4 with collided := reports.reverse } : GState).rotLog = s4.rotLog := rfl
  have c1 : (attempt st k reports).rotLog.length = st.rotLog.length + 1 := by
    rw [hattempt, rotate_side_rotLog, e0, h_rot]
    simp
  have hpendA : (attempt st k reports).pending =
      [⟨side, reports.reverse, vsmul (cfg side).rotation s4.direction⟩] := by
    rw [hattempt, rotate_side_pending]
    have e1 : ({ s4 with collided := reports.reverse } : GState).pending = s4.pending := rfl
    rw [e1, h_pend, hpend]
    rfl
  have hcompl : completeAll (attempt st k reports) =
      completeSeq (attempt st k reports) := by
    unfold completeAll
    rw [hpendA]
    rfl
  have c2 : (completeAll (attempt st k reports)).clearCount = st.clearCount + 1 := by
    rw [hcompl, completeSeq_clearCount hpendA, hattempt, rotate_side_clearCount]
    have e2 : ({ s4 with collided := reports.reverse } : GState).clearCount
        = s4.clearCount := rfl
    rw [e2, h_clear]
  have c3 : (completeAll (attempt st k reports)).collided = [] := by
    rw [hcompl, completeSeq_collided hpendA]
  refine ⟨c1, c2, c3, ?_⟩
  obtain ⟨s5, heq5, h5col, h5arm, h5dir, h5rot, h5pend, h5clear, h5par, h5pos, h5rand⟩ :=
    attempt_face st k (reports ++ [c]) side harm hf
  have h5colE : s5.collided = [] := by rw [h5col, hcol]
  have hsplit : attempt st k (reports ++ [c]) =
      collide side c (rotate_side side { s5 with collided := reports.reverse }) := by
    rw [heq5, processReports_append,
      processReports_quorum side s5 reports h5colE hnd hlen, processReports_singleton]
  rw [hsplit]
  have hRcol : (rotate_side side { s5 with collided := reports.reverse }).collided
      = reports.reverse := rfl
  have hins : insertCube c reports.reverse = reports.reverse := by
    unfold insertCube
    rw [if_pos (List.mem_reverse.mpr hc)]
  have hge : (cfg side).num ≤
      (insertCube c
        (rotate_side side { s5 with collided := reports.reverse }).collided).length := by
    rw [hRcol, hins, List.length_reverse, hlen]
  rw [collide_of_ge hge, rotate_side_rotLog]
  have e3 : ({ (rotate_side side { s5 with collided := reports.reverse }) with
      collided := insertCube c
        (rotate_side side { s5 with collided := reports.reverse }).collided } : GState).rotLog
      = (rotate_side side { s5 with collided := reports.reverse }).rotLog := rfl
  rw [e3, rotate_side_rotLog]
  have e4 : ({ s5 with collided := reports.reverse } : GState).rotLog = s5.rotLog := rfl
  rw [e4, h5rot]
  simp

/-- Witness for the amended C1: key t from the initial state with the nine
distinct reports 0..8, and the duplicate report 0. -/
theorem quorum_rotates_exactly_once_witness :
    (attempt initState 't' [0, 1, 2, 3, 4, 5, 6, 7, 8]).rotLog.length
        = initState.rotLog.length + 1 ∧
    (completeAll (attempt initState 't' [0, 1, 2, 3, 4, 5, 6, 7, 8])).clearCount
        = initState.clearCount + 1 ∧
    (completeAll (attempt initState 't' [0, 1, 2, 3, 4, 5, 6, 7, 8])).collided = [] ∧
    (attempt initState 't' ([0, 1, 2, 3, 4, 5, 6, 7, 8] ++ [0])).rotLog.length
        = initState.rotLog.length + 2 :=
  quorum_rotates_exactly_once initState 't' Side.TOP_SIDE
    [0, 1, 2, 3, 4, 5, 6, 7, 8] 0 rfl rfl rfl rfl (by decide) (by decide) (by decide)

/-- Counterexample for C4: from the freshly initialised state, an attempt with
face key t whose traversal delivers only seven distinct reports (below the
top face's quorum of nine) triggers no rotation — but the single-shot input
channel is left DISARMED, not re-armed as the claim states: a subsequent
keystroke is dropped. -/
theorem subquorum_not_rearmed_counterexample :
    (attempt initState 't' [0, 1, 2, 3, 4, 5, 6]).rotLog = [] ∧
    (attempt initState 't' [0, 1, 2, 3, 4, 5, 6]).armed = false := by
  refine ⟨by decide, by decide⟩

/-- Claim C4 (amended): an attempt with a key bound to a face whose traversal
delivers fewer distinct reports than the face's quorum triggers no rotation,
and the single-shot input channel is NOT re-armed — re-arming happens only in
the non-face-key path of `force_traverse` or in a completed rotation's `reset`
— so a subsequent keystroke is dropped, leaving the state unchanged. -/
theorem subquorum_leaves_channel_disarmed (st : GState) (k k2 : Char)
    (side : Side) (reports r2 : List Cubie)
    (harm : st.armed = true) (hf : faceOfKey k = some side)
    (hcol : st.collided = []) (hnd : reports.Nodup)
    (hlen : reports.length < (cfg side).num) :
    (attempt st k reports).rotLog = st.rotLog ∧
    (attempt st k reports).armed = false ∧
    attempt (attempt st k reports) k2 r2 = attempt st k reports := by
  obtain ⟨s4, heq, h_col, h_arm, h_dir, h_rot, h_pend, h_clear, h_par, h_pos, h_rand⟩ :=
    attempt_face st k reports side harm hf
  have hsmall := processReports_small side reports s4 hnd
    (by intro x hx; rw [h_col, hcol]; simp)
    (by rw [h_col, hcol]; simpa using hlen)
  have e1 : ({ s4 with collided := reports.reverse ++ s4.collided } : GState).rotLog
      = s4.rotLog := rfl
  have e2 : ({ s4 with collided := reports.reverse ++ s4.collided } : GState).armed
      = s4.armed := rfl
  refine ⟨?_, ?_, ?_⟩
  · rw [heq, hsmall, e1, h_rot]
  · rw [heq, hsmall, e2, h_arm]
  · apply attempt_unarmed
    rw [heq, hsmall, e2, h_arm]

/-- Witness for the amended C4: key t from the initial state with only seven
distinct reports; the follow-up keystroke d is dropped. -/
theorem subquorum_leaves_channel_disarmed_witness :
    (attempt initState 't' [0, 1, 2, 3, 4, 5, 6]).rotLog = initState.rotLog ∧
    (attempt initState 't' [0, 1, 2, 3, 4, 5, 6]).armed = false ∧
    attempt (attempt initState 't' [0, 1, 2, 3, 4, 5, 6]) 'd' [] =
      attempt initState 't' [0, 1, 2, 3, 4, 5, 6] :=
  subquorum_leaves_channel_disarmed initState 't' 'd' Side.TOP_SIDE
    [0, 1, 2, 3, 4, 5, 6] [] rfl rfl rfl (by decide) (by decide)

/-- Claim C5: starting from a state in which every cubie is parented to the
cube root, after any attempt and the completion of every rotation sequence it
started (each ending in the executor's re-parent-back step), every cubie that
was re-parented under a face pivot is parented to the cube root again — no
cubie is ever left parented to a pivot once the rotation sequences finish. -/
theorem completed_rotation_restores_root (st : GState) (k : Char)
    (r : List Cubie) (h : allRoot st) :
    allRoot (completeAll (attempt st k r)) := by
  have hcov : coveredByPending (attempt st k r) :=
    cov_attempt k r (fun c hc => absurd (h c) hc)
  have hcov2 : coveredByPending (completeAll (attempt st k r)) := by
    unfold completeAll
    exact cov_completeN _ hcov
  have hpend : (completeAll (attempt st k r)).pending = [] := by
    unfold completeAll
    exact completeN_pending _ _ rfl
  intro c
  by_contra hne
  obtain ⟨j, hj, -⟩ := hcov2 c hne
  rw [hpend] at hj
  exact absurd hj (List.not_mem_nil j)

/-- Witness for C5: a full top-face rotation from the initial state (all cubies
at the root) ends with every cubie parented to the cube root again. -/
theorem completed_rotation_restores_root_witness :
    allRoot (completeAll (attempt initState 't' [0, 1, 2, 3, 4, 5, 6, 7, 8])) :=
  completed_rotation_restores_root initState 't' [0, 1, 2, 3, 4, 5, 6, 7, 8]
    (fun _ => rfl)
